import Mathlib

/-!
# Verification of the wilkaraoke server core (`server.py`)

A shallow embedding, in Lean 4, of the pure core of `server.py`:

* the SRT cue parser (`parse_srt`, lines 58-96),
* the per-song assembly step of the library scanner (lines 226-253 / 292-313),
* the cache refresh (`refresh_songs`, lines 606-612),
* the room-state store (lines 336-390) and the HTTP handler fragments that
  normalize room ids (lines 441-465),
* the byte-range file responder (`serve_local_file`, lines 526-582).

Modelling conventions:

* Python strings are modelled as `List Char` (ASCII-oriented: `str.strip`,
  `str.lower`, `\s` and `\d` are modelled over their ASCII behaviour).
* SRT timestamps carry exactly three millisecond digits, so every time value
  produced by the parser is an integral number of milliseconds; times are
  modelled as natural-number millisecond counts (`Nat`).  Python's
  `round(x, 3)` applied to such a value is the identity on the represented
  number, and the float order on these values agrees with the order on the
  millisecond counts, so `Nat` comparison is faithful.
* Clock readings (`time.time()`) and JSON numbers are modelled as `ℚ` and
  passed explicitly (`now` parameters) where the code calls `time.time()`.
* Fallible code is modelled with `Option` / `Except`.
-/

/-- ASCII fragment of Python's `\s` / `str.strip()` whitespace class. -/
def isPySpace (c : Char) : Bool :=
  c = ' ' || c = '\t' || c = '\n' || c = '\r' || c = '\x0b' || c = '\x0c'

/-- Python `str.strip()` on a character list. -/
def pyStrip (l : List Char) : List Char :=
  ((l.dropWhile isPySpace).reverse.dropWhile isPySpace).reverse

/-- Python `str.split("\n")`: split at every newline, keeping empty pieces. -/
def splitNl : List Char → List (List Char)
  | [] => [[]]
  | c :: cs =>
    if c = '\n' then [] :: splitNl cs
    else
      match splitNl cs with
      | l :: ls => (c :: l) :: ls
      | [] => [[c]]

/-- `"-->" in line` (Python substring test for the timestamp arrow). -/
def hasArrow : List Char → Bool
  | '-' :: '-' :: '>' :: _ => true
  | _ :: cs => hasArrow cs
  | [] => false

/-- The loop of `parse_srt` lines 70-74: first line containing `-->`
    together with the lines after it. -/
def findArrowLine : List (List Char) → Option (List Char × List (List Char))
  | [] => none
  | l :: ls => if hasArrow l then some (l, ls) else findArrowLine ls

/-- Python `" ".join(lines)`. -/
def joinSpaces (ls : List (List Char)) : List Char :=
  List.intercalate [' '] ls

/-- Position (as the remaining suffix) after the next `'>'`, if any:
    helper for the tag-stripping regex. -/
def splitAtGt : List Char → Option (List Char × List Char)
  | [] => none
  | c :: cs =>
    if c = '>' then some ([], cs)
    else match splitAtGt cs with
      | some (pre, post) => some (c :: pre, post)
      | none => none

/-- `re.sub(r"<[^>]+>", "", text)` (line 91): remove every leftmost
    `<`…`>` group with at least one non-`>` character inside.  The `fuel`
    argument only bounds the recursion; `stripTags` supplies enough. -/
def stripTagsGo : Nat → List Char → List Char
  | _, [] => []
  | 0, l => l
  | fuel + 1, c :: cs =>
    if c = '<' then
      match splitAtGt cs with
      | some (inside, rest) =>
        if inside.isEmpty then c :: stripTagsGo fuel cs
        else stripTagsGo fuel rest
      | none => c :: stripTagsGo fuel cs
    else c :: stripTagsGo fuel cs

def stripTags (l : List Char) : List Char :=
  stripTagsGo l.length l

/-- Value of an ASCII digit. -/
def digitVal (c : Char) : Option Nat :=
  if c.isDigit then some (c.toNat - 48) else none

/-- `\d{2}`: exactly two digits. -/
def parse2 : List Char → Option (Nat × List Char)
  | c1 :: c2 :: rest => do
    let d1 ← digitVal c1
    let d2 ← digitVal c2
    some (10 * d1 + d2, rest)
  | _ => none

/-- `\d{3}`: exactly three digits. -/
def parse3 : List Char → Option (Nat × List Char)
  | c1 :: c2 :: c3 :: rest => do
    let d1 ← digitVal c1
    let d2 ← digitVal c2
    let d3 ← digitVal c3
    some (100 * d1 + 10 * d2 + d3, rest)
  | _ => none

/-- `\d{1,2}` followed (in the pattern) by a non-digit: greedily one or two
    digits.  Backtracking cannot help the regex here, since after a single
    digit the next pattern character is `:`, which the second digit is not. -/
def parseH : List Char → Option (Nat × List Char)
  | c1 :: c2 :: rest => do
    let d1 ← digitVal c1
    match digitVal c2 with
    | some d2 => some (10 * d1 + d2, rest)
    | none => some (d1, c2 :: rest)
  | [c1] => do
    let d1 ← digitVal c1
    some (d1, [])
  | [] => none

def expectChar (c : Char) : List Char → Option (List Char)
  | x :: rest => if x = c then some rest else none
  | [] => none

/-- `[,.]`: comma or period. -/
def expectCommaDot : List Char → Option (List Char)
  | x :: rest => if x = ',' || x = '.' then some rest else none
  | [] => none

/-- One `HH:MM:SS[,.]mmm` group of the timestamp regex (line 80), returned
    as a millisecond count plus the remaining characters. -/
def parseTime (l : List Char) : Option (Nat × List Char) := do
  let (h, l) ← parseH l
  let l ← expectChar ':' l
  let (m, l) ← parse2 l
  let l ← expectChar ':' l
  let (s, l) ← parse2 l
  let l ← expectCommaDot l
  let (ms, l) ← parse3 l
  some (((h * 3600 + m * 60 + s) * 1000 + ms, l))

/-- `re.match` of the full timestamp pattern (lines 79-82) against the
    stripped timestamp line: start and end in milliseconds.  `re.match`
    anchors at the start only, so trailing characters are ignored. -/
def parseTimestampLine (l : List Char) : Option (Nat × Nat) := do
  let (t1, l) ← parseTime l
  let l := l.dropWhile isPySpace
  let l ← expectChar '-' l
  let l ← expectChar '-' l
  let l ← expectChar '>' l
  let l := l.dropWhile isPySpace
  let (t2, _) ← parseTime l
  some (t1, t2)

/-- The suffix following the last `'\n'` of a list, if the list contains one. -/
def afterLastNl : List Char → Option (List Char)
  | [] => none
  | c :: cs =>
    match afterLastNl cs with
    | some r => some r
    | none => if c = '\n' then some cs else none

/-- Attempt to read one separator of `re.split(r"\n\s*\n", …)` (line 61)
    whose first `'\n'` has just been consumed: the regex matches greedily,
    consuming through the last `'\n'` of the maximal whitespace run that
    follows; the rest of that run stays with the next block.  Returns the
    remainder after the separator when the run contains a newline. -/
def sepTail (cs : List Char) : Option (List Char) :=
  match afterLastNl (cs.takeWhile isPySpace) with
  | some tail => some (tail ++ cs.dropWhile isPySpace)
  | none => none

/-- Leftmost-match scan of `re.split(r"\n\s*\n", s)`.  `fuel` bounds the
    recursion and is always at least the length of the remaining input, so
    the exhaustion branch is never reached (`splitBlocksPy` supplies
    `length + 1`).  `acc` is the current block, reversed. -/
def splitBlocksGo : Nat → List Char → List Char → List (List Char)
  | _, [], acc => [acc.reverse]
  | 0, cs, acc => [acc.reverse ++ cs]
  | fuel + 1, c :: cs, acc =>
    if c = '\n' then
      match sepTail cs with
      | some rest => acc.reverse :: splitBlocksGo fuel rest []
      | none => splitBlocksGo fuel cs (c :: acc)
    else splitBlocksGo fuel cs (c :: acc)

/-- `re.split(r"\n\s*\n", s)` for the (already stripped) document. -/
def splitBlocksPy (s : List Char) : List (List Char) :=
  splitBlocksGo (s.length + 1) s []

/-- One subtitle cue.  `startMs`/`endMs` are the parsed times in
    milliseconds (Python: seconds as floats rounded to 3 decimals, an exact
    encoding of the same value); `text` is the joined, tag-stripped,
    stripped cue text. -/
structure Cue where
  startMs : Nat
  endMs : Nat
  text : List Char
deriving DecidableEq, Repr

/-- The body of the `for block in blocks` loop of `parse_srt`
    (lines 63-94): the cue contributed by one block, if any. -/
def processBlock (block : List Char) : Option Cue :=
  let lines := splitNl (pyStrip block)
  if lines.length < 2 then none
  else
    match findArrowLine lines with
    | none => none
    | some (tsLine, textLines) =>
      match parseTimestampLine (pyStrip tsLine) with
      | none => none
      | some (s, e) =>
        let text := pyStrip (stripTags (joinSpaces textLines))
        if text.isEmpty then none
        else some ⟨s, e, text⟩

/-- `parse_srt` (lines 58-96). -/
def parse_srt (content : List Char) : List Cue :=
  (splitBlocksPy (pyStrip content)).filterMap processBlock

/-- A well-formed block in the sense of the specification: its first line
    containing the arrow `-->` parses as a timestamp line, and the joined
    text after it is non-empty once tags are stripped and it is trimmed. -/
def wellFormedBlock (block : List Char) : Bool :=
  match findArrowLine (splitNl (pyStrip block)) with
  | none => false
  | some (tsLine, textLines) =>
    (parseTimestampLine (pyStrip tsLine)).isSome &&
      !(pyStrip (stripTags (joinSpaces textLines))).isEmpty

/-- The cue of a well-formed block. -/
def cueOfBlock (block : List Char) : Cue :=
  (processBlock block).getD ⟨0, 0, []⟩

/-!
## Library scanner: per-song assembly (lines 226-253 of `scan_library_local`;
`scan_library_r2` lines 292-313 shares the same resolution logic)
-/

/-- Round-half-to-even of a rational to an integer, Python's `round`
    tie-breaking (decimal idealization of the float operation). -/
def roundHalfEven (q : ℚ) : ℤ :=
  let f := ⌊q⌋
  let frac := q - (f : ℚ)
  if frac < 1 / 2 then f
  else if frac > 1 / 2 then f + 1
  else if f % 2 = 0 then f else f + 1

/-- Python `round(x, 1)`. -/
def pyRound1 (q : ℚ) : ℚ :=
  (roundHalfEven (q * 10) : ℚ) / 10

/-- Typed view of the optional `config.json` keys the scanner reads
    (spec section 6); `none` models an absent key. -/
structure SongConfig where
  title : Option (List Char) := none
  artist : Option (List Char) := none
  difficulty : Option (List Char) := none
  subtitle_offset : Option ℚ := none
  cutoff_windows : Option (List (ℚ × ℚ)) := none
  cutoff_time : Option ℚ := none

/-- A normalized Song entry (lines 240-252). -/
structure Song where
  id : List Char
  title : List Char
  artist : List Char
  difficulty : List Char
  cutoff_windows : List (ℚ × ℚ)
  subtitle_offset : ℚ
  duration : ℚ
  has_video : Bool
  video_url : Option (List Char)
  lyrics : List Cue
  folder : List Char

/-- `max(c["end"] for c in lyrics)` in milliseconds (the scanner only calls
    this on a non-empty cue list, for which the fold below is that maximum;
    cue ends are non-negative, so the `0` seed is neutral). -/
def maxEndMs (lyrics : List Cue) : Nat :=
  lyrics.foldl (fun a c => max a c.endMs) 0

/-- `folder.name.replace("-", " ").replace("_", " ")`. -/
def replaceSeps (l : List Char) : List Char :=
  l.map fun c => if c = '-' || c = '_' then ' ' else c

/-- ASCII model of Python `str.title()`: upper-case a letter that does not
    follow a letter, lower-case one that does. -/
def pyTitleGo : Bool → List Char → List Char
  | _, [] => []
  | prevAlpha, c :: cs =>
    if c.isAlpha then
      (if prevAlpha then c.toLower else c.toUpper) :: pyTitleGo true cs
    else c :: pyTitleGo false cs

def pyTitle (l : List Char) : List Char :=
  pyTitleGo false l

/-- Lines 233-238: resolution of `cutoff_windows` from the configuration.
    `config.get("cutoff_windows", None)` is falsy when the key is absent or
    the list empty, in which case a single window is synthesized from
    `cutoff_time`, defaulting to `round(duration * 0.5, 1)`. -/
def resolveCutoffWindows (config : SongConfig) (duration : ℚ) : List (ℚ × ℚ) :=
  match config.cutoff_windows with
  | some (w :: ws) => w :: ws
  | _ =>
    let ct := config.cutoff_time.getD (pyRound1 (duration * (1 / 2)))
    [(ct, duration)]

/-- Lines 226-253: the Song assembled for one folder from its parsed cues,
    configuration, and located video file name (the scanner skips the
    folder earlier when `lyrics` is empty). -/
def build_song (folderName : List Char) (config : SongConfig)
    (lyrics : List Cue) (videoFile : Option (List Char)) : Song :=
  let duration : ℚ := (maxEndMs lyrics : ℚ) / 1000
  let defaultTitle := pyTitle (replaceSeps folderName)
  { id := folderName
    title := config.title.getD defaultTitle
    artist := config.artist.getD "Artiste inconnu".data
    difficulty := config.difficulty.getD "medium".data
    cutoff_windows := resolveCutoffWindows config duration
    subtitle_offset := config.subtitle_offset.getD 0
    duration := duration
    has_video := videoFile.isSome
    video_url := videoFile.map fun name =>
      "/videos/".data ++ folderName ++ "/".data ++ name
    lyrics := lyrics
    folder := folderName }

/-!
## Song repository refresh (`refresh_songs`, lines 606-612)

`refresh_songs` first runs the scan to completion (`new_songs =
scan_library()`) and only then assigns `songs_cache = new_songs` under the
lock.  A scan that raises is modelled as `Except.error`: the assignment is
never reached and the exception propagates, so the cache keeps its previous
value.
-/

def refresh_songs (scanResult : Except String (List Song)) (cache : List Song) :
    List Song × Except String Unit :=
  match scanResult with
  | .ok newSongs => (newSongs, .ok ())
  | .error e => (cache, .error e)

/-!
## Room state store (lines 336-390) and the room-id handling of the HTTP
handler (lines 441-465, 497-509)
-/

/-- JSON-like values held in room state. -/
inductive JValue where
  | null
  | bool (b : Bool)
  | num (q : ℚ)
  | str (s : String)
deriving DecidableEq

/-- A room's state map: a JSON object, modelled by its lookup function
    (`none` = key absent, `some JValue.null` = key present with `null`). -/
abbrev StateMap := String → Option JValue

/-- One entry of `game_rooms`. -/
structure Room where
  state : StateMap
  last_activity : ℚ

/-- `game_rooms`: a Python dict, modelled as an association list in
    insertion order with (invariantly) unique keys. -/
abbrev Store := List (String × Room)

def ROOM_EXPIRY_SECONDS : ℚ := 2 * 3600

/-- `get_room_state` (lines 342-348). -/
def get_room_state (store : Store) (room_id : String) : StateMap :=
  match List.lookup room_id store with
  | some room => room.state
  | none => fun k =>
      if k = "song_id" then some JValue.null
      else if k = "room_id" then some (JValue.str room_id)
      else none

/-- `update_room_state` (lines 351-359).  `data` is the parsed JSON body
    (a finite dict, modelled by its lookup function); `now` models the
    `time.time()` readings of the update. -/
def update_room_state (store : Store) (room_id : String)
    (data : String → Option JValue) (now : ℚ) : Store :=
  let base : Room :=
    match List.lookup room_id store with
    | some r => r
    | none => { state := fun _ => none, last_activity := now }
  let newState : StateMap := fun k =>
    if k = "room_id" then some (JValue.str room_id)
    else if k = "timestamp" then some (JValue.num now)
    else
      match data k with
      | some v => some v
      | none => base.state k
  let newRoom : Room := { state := newState, last_activity := now }
  match List.lookup room_id store with
  | some _ => store.map fun e => if e.1 = room_id then (room_id, newRoom) else e
  | none => store ++ [(room_id, newRoom)]

/-- `check_room_exists` (lines 362-365). -/
def check_room_exists (store : Store) (room_id : String) : Bool :=
  (List.lookup room_id store).isSome

/-- `cleanup_expired_rooms` (lines 368-376): delete every room with
    `now - last_activity > ROOM_EXPIRY_SECONDS`. -/
def cleanup_expired_rooms (store : Store) (now : ℚ) : Store :=
  store.filter fun e => !(decide (now - e.2.last_activity > ROOM_EXPIRY_SECONDS))

/-- One row of the `/api/rooms` listing. -/
structure RoomListing where
  room_id : String
  song : JValue
  artist : JValue
  active : Bool
deriving DecidableEq

/-- The row built for one room (lines 382-389); `now` models the
    `time.time()` call of the comprehension. -/
def listingOf (now : ℚ) (rid : String) (room : Room) : RoomListing :=
  { room_id := rid
    song := (room.state "song_title").getD (JValue.str "")
    artist := (room.state "song_artist").getD (JValue.str "")
    active := decide (now - room.last_activity < 30) }

/-- `list_active_rooms` (lines 379-390). -/
def list_active_rooms (store : Store) (now : ℚ) : List RoomListing :=
  store.map fun e => listingOf now e.1 e.2

/-- ASCII model of Python `str.strip()` on a string. -/
def pyStripStr (s : String) : String :=
  ⟨pyStrip s.data⟩

/-- ASCII model of Python `str.lower()`. -/
def pyLower (s : String) : String :=
  ⟨s.data.map Char.toLower⟩

/-- Room id used by `GET /api/state` and `POST /api/state`
    (lines 443, 500): stripped, case preserved. -/
def api_state_room_id (raw : String) : String :=
  pyStripStr raw

/-- Room id used by `GET /api/room/check` (line 459): stripped and
    lower-cased. -/
def api_room_check_id (raw : String) : String :=
  pyLower (pyStripStr raw)

/-- The existence answer of `GET /api/room/check` (lines 457-464) for a
    non-empty id. -/
def api_room_check (store : Store) (raw : String) : Bool :=
  check_room_exists store (api_room_check_id raw)

/-- The store after `POST /api/state` with raw room parameter `raw`
    (lines 497-509): `none` models the 400 response for a blank id. -/
def api_post_state (store : Store) (raw : String)
    (data : String → Option JValue) (now : ℚ) : Option Store :=
  let rid := api_state_room_id raw
  if rid = "" then none
  else some (update_room_state store rid data now)

/-!
## Media range responder (`serve_local_file`, lines 526-582)

Modelled for an existing file (the 403/404 paths of lines 528-538 are taken
earlier): the response is determined by the file's bytes and the optional
`Range` header.
-/

/-- `re.match(r"bytes=(\d+)-(\d*)", header)` (line 546): start and optional
    end; trailing characters are ignored (`re.match` anchors at the start
    only). -/
def parseRangeHeader (h : List Char) : Option (Nat × Option Nat) :=
  match h with
  | 'b' :: 'y' :: 't' :: 'e' :: 's' :: '=' :: rest =>
    let ds := rest.takeWhile Char.isDigit
    let rest2 := rest.dropWhile Char.isDigit
    if ds.isEmpty then none
    else
      match rest2 with
      | '-' :: rest3 =>
        let es := rest3.takeWhile Char.isDigit
        let toNat : List Char → Nat := fun l => l.foldl (fun a c => 10 * a + (c.toNat - 48)) 0
        some (toNat ds, if es.isEmpty then none else some (toNat es))
      | _ => none
  | _ => none

/-- The response of `serve_local_file` once the file is known to exist. -/
structure RangeResponse where
  status : Nat
  contentLength : ℤ
  contentRange : Option (Nat × ℤ × Nat)
  body : List Nat
deriving DecidableEq

/-- Lines 540-582 of `serve_local_file` for an existing file with bytes
    `content`: a parseable `Range` header yields a 206 with
    `end = min(end, file_size - 1)` and `length = end - start + 1`; the
    write loop emits the bytes from offset `start` while `remaining > 0`
    and the file yields data, i.e. `max 0 (min length (size - start))`
    bytes; any other request serves the whole file with a 200. -/
def serve_local_file (content : List Nat) (rangeHeader : Option (List Char)) :
    RangeResponse :=
  let file_size := content.length
  let full : RangeResponse :=
    { status := 200, contentLength := file_size, contentRange := none
      body := content }
  match rangeHeader with
  | none => full
  | some h =>
    match parseRangeHeader h with
    | none => full
    | some (s, eOpt) =>
      let e0 : ℤ := match eOpt with | some e => (e : ℤ) | none => (file_size : ℤ) - 1
      let e : ℤ := min e0 ((file_size : ℤ) - 1)
      let len : ℤ := e - s + 1
      { status := 206
        contentLength := len
        contentRange := some (s, e, file_size)
        body := if len ≤ 0 then [] else (content.drop s).take len.toNat }

/-!
## Lemmas and claim theorems
-/

/-- `filterMap` is the `map` of a `filter` by definedness. -/
lemma filterMap_eq_filter_map {α β : Type} (f : α → Option β) (d : β) :
    ∀ l : List α,
      l.filterMap f = (l.filter fun a => (f a).isSome).map fun a => (f a).getD d := by
  intro l
  induction l with
  | nil => rfl
  | cons a l ih =>
    cases hfa : f a <;>
      simp [List.filterMap_cons, List.filter_cons, hfa, ih]

/-- A block contributes a cue exactly when it is well-formed in the sense of
    the specification (the parser's extra `len(lines) < 2` guard is
    redundant: a one-line block has no text lines, hence empty text). -/
lemma wellFormedBlock_eq (b : List Char) :
    wellFormedBlock b = (processBlock b).isSome := by
  simp only [wellFormedBlock, processBlock]
  generalize splitNl (pyStrip b) = lines
  match lines with
  | [] => simp [findArrowLine]
  | [l] =>
    by_cases ha : hasArrow l
    · simp [findArrowLine, ha]
      intro _
      decide
    · simp [findArrowLine, ha]
  | l1 :: l2 :: ls =>
    have hlen : ¬ (l1 :: l2 :: ls).length < 2 := by simp
    simp only [if_neg hlen]
    cases hf : findArrowLine (l1 :: l2 :: ls) with
    | none => simp
    | some pr =>
      obtain ⟨ts, textLines⟩ := pr
      cases hp : parseTimestampLine (pyStrip ts) with
      | none => simp [hp]
      | some se =>
        obtain ⟨s, e⟩ := se
        by_cases ht : (pyStrip (stripTags (joinSpaces textLines))).isEmpty
        · simp [hp, ht]
        · rw [Bool.not_eq_true] at ht
          simp [hp, ht]

/-- C1 (amended): `parse_srt` returns exactly the cues of the well-formed
    blocks, one per well-formed block, in source order; each cue carries the
    block's parsed start and end verbatim (the parser does not reorder cues
    and does not constrain `start ≤ end`). -/
theorem parse_srt_wellformed_blocks (content : List Char) :
    parse_srt content
      = ((splitBlocksPy (pyStrip content)).filter wellFormedBlock).map cueOfBlock
    ∧ (parse_srt content).length
      = (splitBlocksPy (pyStrip content)).countP wellFormedBlock := by
  have h1 : wellFormedBlock = fun b => (processBlock b).isSome :=
    funext wellFormedBlock_eq
  have h2 : parse_srt content
      = ((splitBlocksPy (pyStrip content)).filter wellFormedBlock).map cueOfBlock := by
    rw [parse_srt, filterMap_eq_filter_map processBlock ⟨0, 0, []⟩, h1]
    rfl
  refine ⟨h2, ?_⟩
  rw [h2, List.length_map, List.countP_eq_length_filter]

/-- C1 (counterexample to the claim as stated): a document with a single
    well-formed block whose timestamps are reversed yields a cue with
    `start > end` — the parser does not enforce `start ≤ end`. -/
theorem parse_srt_start_le_end_cex :
    wellFormedBlock ("00:00:05,000 --> 00:00:01,000\nhello".data) = true
    ∧ parse_srt ("00:00:05,000 --> 00:00:01,000\nhello".data)
        = [⟨5000, 1000, "hello".data⟩]
    ∧ ¬ (5000 ≤ 1000) := by
  refine ⟨by decide, by decide, by decide⟩

/-- C9: `parse_srt` is a total function of its input (it is defined by
    structural recursion with sufficient fuel, mirroring the fact that the
    Python code uses no raising operation), and on an input none of whose
    blocks is well-formed it returns the empty cue list. -/
theorem parse_srt_empty_on_malformed (content : List Char)
    (h : ∀ b ∈ splitBlocksPy (pyStrip content), wellFormedBlock b = false) :
    parse_srt content = [] := by
  rw [parse_srt, List.filterMap_eq_nil_iff]
  intro b hb
  have := h b hb
  rw [wellFormedBlock_eq] at this
  exact Option.not_isSome_iff_eq_none.mp (by simp [this])

/-- C9 witness: a concrete fully-malformed document parses to the empty
    sequence. -/
theorem parse_srt_empty_on_malformed_witness :
    (∀ b ∈ splitBlocksPy (pyStrip "hello world\n\nno timestamps here".data),
        wellFormedBlock b = false)
    ∧ parse_srt "hello world\n\nno timestamps here".data = [] :=
  ⟨by decide, parse_srt_empty_on_malformed "hello world\n\nno timestamps here".data
      (by decide)⟩

/-- Lookup in an appended association list. -/
lemma lookup_append {α β : Type} [DecidableEq α] (a : α) :
    ∀ (l1 l2 : List (α × β)),
      List.lookup a (l1 ++ l2)
        = ((List.lookup a l1).rec (List.lookup a l2) fun b => some b) := by
  intro l1 l2
  induction l1 with
  | nil => simp [List.lookup]
  | cons e l ih =>
    by_cases he : a = e.1
    · simp [List.lookup, he]
    · simpa [List.lookup, beq_false_of_ne he] using ih

/-- Lookup after replacing the value stored at one key. -/
lemma lookup_map_replace {β : Type} (x rid : String) (r : β) :
    ∀ l : List (String × β),
      List.lookup x (l.map fun e => if e.1 = rid then (rid, r) else e)
        = if x = rid then (List.lookup rid l).map fun _ => r
          else List.lookup x l := by
  intro l
  induction l with
  | nil => simp [List.lookup]
  | cons e l ih =>
    obtain ⟨a, b⟩ := e
    simp only [List.map_cons]
    by_cases he : a = rid
    · subst he
      simp only [if_pos rfl]
      by_cases hx : x = a
      · subst hx
        simp [List.lookup]
      · simp [List.lookup, beq_false_of_ne hx, ih, hx]
    · simp only [if_neg he]
      by_cases hx : x = a
      · subst hx
        simp [List.lookup, he]
      · simp [List.lookup, beq_false_of_ne hx, ih,
          beq_false_of_ne (Ne.symm he)]

/-- C3 (amended): after an update the room is present (an absent room is
    created); its `room_id` key equals the supplied id and its `timestamp`
    key is freshly stamped with the current time (so these two keys do not
    keep their old values); every other key holds the update map's value
    when the key is in the update map, and otherwise survives with the value
    it had in the room's previous state (`none` for a previously absent
    room). -/
theorem update_room_state_merge (store : Store) (rid : String)
    (data : String → Option JValue) (now : ℚ) :
    check_room_exists (update_room_state store rid data now) rid = true
    ∧ get_room_state (update_room_state store rid data now) rid "room_id"
        = some (JValue.str rid)
    ∧ get_room_state (update_room_state store rid data now) rid "timestamp"
        = some (JValue.num now)
    ∧ ∀ k, k ≠ "room_id" → k ≠ "timestamp" →
        get_room_state (update_room_state store rid data now) rid k
          = match data k, List.lookup rid store with
            | some v, _ => some v
            | none, some r => r.state k
            | none, none => none := by
  cases hl : List.lookup rid store with
  | none =>
    have h2 : List.lookup rid (update_room_state store rid data now)
        = some ⟨fun k =>
            if k = "room_id" then some (JValue.str rid)
            else if k = "timestamp" then some (JValue.num now)
            else match data k with
              | some v => some v
              | none => none, now⟩ := by
      simp only [update_room_state, hl]
      rw [lookup_append, hl]
      simp [List.lookup]
    refine ⟨?_, ?_, ?_, ?_⟩
    · simp [check_room_exists, h2]
    · simp [get_room_state, h2]
    · simp [get_room_state, h2]
    · intro k h1k h2k
      simp only [get_room_state, h2]
      cases hd : data k <;> simp [h1k, h2k, hd]
  | some r =>
    have h2 : List.lookup rid (update_room_state store rid data now)
        = some ⟨fun k =>
            if k = "room_id" then some (JValue.str rid)
            else if k = "timestamp" then some (JValue.num now)
            else match data k with
              | some v => some v
              | none => r.state k, now⟩ := by
      simp only [update_room_state, hl]
      rw [lookup_map_replace, if_pos rfl, hl]
      rfl
    refine ⟨?_, ?_, ?_, ?_⟩
    · simp [check_room_exists, h2]
    · simp [get_room_state, h2]
    · simp [get_room_state, h2]
    · intro k h1k h2k
      simp only [get_room_state, h2]
      cases hd : data k <;> simp [h1k, h2k, hd]

/-- C3 (witness): concrete instantiation of the merge properties — an
    update of `{a: 1}` with `{b: 2}` keeps `a`, adds `b`, and stamps
    `room_id`. -/
theorem update_room_state_merge_witness :
    ("a" ≠ "room_id") ∧ ("a" ≠ "timestamp")
    ∧ (let store1 := update_room_state []
          "r" (fun k => if k = "a" then some (JValue.num 1) else none) 1
       let store2 := update_room_state store1
          "r" (fun k => if k = "b" then some (JValue.num 2) else none) 2
       check_room_exists store2 "r" = true
       ∧ get_room_state store2 "r" "room_id" = some (JValue.str "r")
       ∧ get_room_state store2 "r" "a" = some (JValue.num 1)
       ∧ get_room_state store2 "r" "b" = some (JValue.num 2)) := by
  refine ⟨by decide, by decide, ?_, ?_, ?_, ?_⟩
  · exact (update_room_state_merge _ "r" _ 2).1
  · exact (update_room_state_merge _ "r" _ 2).2.1
  · have h := (update_room_state_merge
      (update_room_state [] "r" (fun k => if k = "a" then some (JValue.num 1) else none) 1)
      "r" (fun k => if k = "b" then some (JValue.num 2) else none) 2).2.2.2
      "a" (by decide) (by decide)
    rw [h]
    rfl
  · have h := (update_room_state_merge
      (update_room_state [] "r" (fun k => if k = "a" then some (JValue.num 1) else none) 1)
      "r" (fun k => if k = "b" then some (JValue.num 2) else none) 2).2.2.2
      "b" (by decide) (by decide)
    rw [h]
    rfl

/-- C3 (counterexample to the claim as stated): `timestamp` is a key
    already present in the room's state and absent from the update map, yet
    it does not survive with its old value — it is overwritten with the
    current time on every update. -/
theorem update_room_state_timestamp_cex :
    get_room_state (update_room_state [] "r" (fun _ => none) 1) "r" "timestamp"
        = some (JValue.num 1)
    ∧ get_room_state
        (update_room_state (update_room_state [] "r" (fun _ => none) 1)
          "r" (fun _ => none) 2) "r" "timestamp"
        = some (JValue.num 2)
    ∧ some (JValue.num 2) ≠ some (JValue.num 1) := by
  refine ⟨rfl, rfl, by decide⟩

/-- C7: `get_room_state` on an id not present in the store returns exactly
    the two-key mapping `{song_id: null, room_id: <the supplied id>}` (it is
    a total function: no error path exists). -/
theorem get_room_state_unknown (store : Store) (rid : String)
    (h : List.lookup rid store = none) :
    get_room_state store rid
      = fun k =>
          if k = "song_id" then some JValue.null
          else if k = "room_id" then some (JValue.str rid)
          else none := by
  rw [get_room_state, h]

/-- C7 witness: a never-seen room id on the empty store. -/
theorem get_room_state_unknown_witness :
    List.lookup "party" ([] : Store) = none
    ∧ get_room_state [] "party"
        = fun k =>
            if k = "song_id" then some JValue.null
            else if k = "room_id" then some (JValue.str "party")
            else none :=
  ⟨rfl, get_room_state_unknown [] "party" rfl⟩

/-- C5: if the scan performed by `refresh_songs` fails, the assignment to
    `songs_cache` is never reached: the cache after the failed refresh is
    the cache from before it, and the error propagates. -/
theorem refresh_songs_error_keeps_cache (e : String) (cache : List Song) :
    (refresh_songs (Except.error e) cache).1 = cache
    ∧ (refresh_songs (Except.error e) cache).2 = Except.error e
    ∧ ∀ songs, (refresh_songs (Except.ok songs) cache).1 = songs := by
  exact ⟨rfl, rfl, fun _ => rfl⟩

/-- C2: resolution of `cutoff_windows` during song assembly — a non-empty
    configured list is used verbatim; otherwise a single window is
    synthesized from the legacy `cutoff_time` when present, and from
    `round(duration * 0.5, 1)` when not, where `duration` is the maximum cue
    end time. -/
theorem build_song_cutoff_windows (folderName : List Char) (config : SongConfig)
    (lyrics : List Cue) (videoFile : Option (List Char)) :
    (build_song folderName config lyrics videoFile).duration
        = (maxEndMs lyrics : ℚ) / 1000
    ∧ (∀ w ws, config.cutoff_windows = some (w :: ws) →
        (build_song folderName config lyrics videoFile).cutoff_windows = w :: ws)
    ∧ ((config.cutoff_windows = none ∨ config.cutoff_windows = some []) →
        (∀ t, config.cutoff_time = some t →
          (build_song folderName config lyrics videoFile).cutoff_windows
            = [(t, (maxEndMs lyrics : ℚ) / 1000)])
        ∧ (config.cutoff_time = none →
          (build_song folderName config lyrics videoFile).cutoff_windows
            = [(pyRound1 (((maxEndMs lyrics : ℚ) / 1000) * (1 / 2)),
                (maxEndMs lyrics : ℚ) / 1000)])) := by
  refine ⟨rfl, ?_, ?_⟩
  · intro w ws hw
    simp [build_song, resolveCutoffWindows, hw]
  · intro hempty
    constructor
    · intro t ht
      rcases hempty with hw | hw <;>
        simp [build_song, resolveCutoffWindows, hw, ht]
    · intro ht
      rcases hempty with hw | hw <;>
        simp [build_song, resolveCutoffWindows, hw, ht]

/-- C2 witness: the three branches at concrete configurations with
    duration `180.0` (a single cue ending at `180000` ms). -/
theorem build_song_cutoff_windows_witness :
    (({ cutoff_windows := some [(1, 2)] } : SongConfig).cutoff_windows
        = some ((1, 2) :: []))
    ∧ (build_song "f".data { cutoff_windows := some [(1, 2)] }
        [⟨0, 180000, "x".data⟩] none).cutoff_windows = [(1, 2)]
    ∧ (build_song "f".data { cutoff_time := some 7 }
        [⟨0, 180000, "x".data⟩] none).cutoff_windows = [(7, 180)]
    ∧ (build_song "f".data {} [⟨0, 180000, "x".data⟩] none).cutoff_windows
        = [(90, 180)] := by
  have d180 : ((maxEndMs [⟨0, 180000, "x".data⟩] : ℚ) / 1000) = 180 := by
    norm_num [maxEndMs]
  refine ⟨rfl, ?_, ?_, ?_⟩
  · have h := (build_song_cutoff_windows "f".data
      { cutoff_windows := some [(1, 2)] } [⟨0, 180000, "x".data⟩] none).2.1
      (1, 2) [] rfl
    exact h
  · have h := ((build_song_cutoff_windows "f".data
      { cutoff_time := some 7 } [⟨0, 180000, "x".data⟩] none).2.2
      (Or.inl rfl)).1 7 rfl
    rw [h, d180]
  · have h := ((build_song_cutoff_windows "f".data
      {} [⟨0, 180000, "x".data⟩] none).2.2 (Or.inl rfl)).2 rfl
    rw [h, d180]
    norm_num [pyRound1, roundHalfEven]

/-- `Char.ofNat` of a valid code point evaluates back to that code point. -/
lemma char_toNat_ofNat (n : Nat) (h : n.isValidChar) :
    (Char.ofNat n).toNat = n := by
  simp [Char.ofNat, h, Char.ofNatAux, Char.toNat, UInt32.toNat, BitVec.toNat_ofNatLt]

/-- Lower-casing moves an ASCII upper-case letter. -/
lemma toLower_ne_of_isUpper (c : Char) (h : c.isUpper = true) :
    Char.toLower c ≠ c := by
  simp only [Char.isUpper, Bool.and_eq_true, decide_eq_true_eq] at h
  obtain ⟨h1, h2⟩ := h
  have hn1 : (65 : Nat) ≤ c.toNat := h1
  have hn2 : c.toNat ≤ (90 : Nat) := h2
  have hv : (c.toNat + 32).isValidChar := by
    unfold Nat.isValidChar
    omega
  have hlow : Char.toLower c = Char.ofNat (c.toNat + 32) := by
    simp [Char.toLower, hn1, hn2]
  intro heq
  rw [hlow] at heq
  have := congrArg Char.toNat heq
  rw [char_toNat_ofNat _ hv] at this
  omega

/-- If mapping `f` over a list gives the list back, `f` fixes each member. -/
lemma map_eq_self_forall {α : Type} (f : α → α) :
    ∀ l : List α, l.map f = l → ∀ x ∈ l, f x = x := by
  intro l
  induction l with
  | nil => intro _ x hx; cases hx
  | cons a l ih =>
    intro h x hx
    rw [List.map_cons, List.cons.injEq] at h
    rcases List.mem_cons.mp hx with hx | hx
    · rw [hx]; exact h.1
    · exact ih h.2 x hx

/-- A string containing an ASCII upper-case letter is changed by
    lower-casing. -/
lemma pyLower_ne_of_upper (s : String)
    (h : ∃ c ∈ s.data, c.isUpper = true) : pyLower s ≠ s := by
  obtain ⟨c, hc, hup⟩ := h
  intro heq
  have hdata : s.data.map Char.toLower = s.data := by
    have := congrArg String.data heq
    simpa [pyLower] using this
  exact toLower_ne_of_isUpper c hup
    (map_eq_self_forall Char.toLower s.data hdata c hc)

/-- Lookup is unchanged at keys other than the replaced/appended one. -/
lemma lookup_update_other (store : Store) (rid other : String)
    (data : String → Option JValue) (now : ℚ) (hne : other ≠ rid) :
    List.lookup other (update_room_state store rid data now)
      = List.lookup other store := by
  unfold update_room_state
  cases hl : List.lookup rid store with
  | none =>
    rw [lookup_append]
    cases ho : List.lookup other store with
    | none => simp [List.lookup, beq_false_of_ne hne]
    | some r => rfl
  | some r => rw [lookup_map_replace, if_neg hne]

/-- C6 (amended): the existence check lower-cases the supplied id while
    `get`/`update` use it as supplied; consequently, when the id contains an
    ASCII upper-case letter and no other room is stored under the
    lower-cased id, a room created via the state-update path is reported as
    non-existent by the existence check on the same supplied id. -/
theorem room_check_case_asymmetry (store : Store) (raw : String)
    (data : String → Option JValue) (now : ℚ)
    (hup : ∃ c ∈ (api_state_room_id raw).data, c.isUpper = true)
    (habs : List.lookup (api_room_check_id raw) store = none) :
    api_room_check_id raw = pyLower (api_state_room_id raw)
    ∧ check_room_exists
        (update_room_state store (api_state_room_id raw) data now)
        (api_state_room_id raw) = true
    ∧ api_room_check
        (update_room_state store (api_state_room_id raw) data now) raw
        = false := by
  have hne : api_room_check_id raw ≠ api_state_room_id raw :=
    pyLower_ne_of_upper (api_state_room_id raw) hup
  refine ⟨rfl, ?_, ?_⟩
  · exact (update_room_state_merge store (api_state_room_id raw) data now).1
  · unfold api_room_check check_room_exists
    rw [lookup_update_other store (api_state_room_id raw)
      (api_room_check_id raw) data now hne, habs]
    rfl

/-- C6 (witness): on an empty store, a room created under `"MyRoom"` is
    invisible to the existence check for `"MyRoom"`. -/
theorem room_check_case_asymmetry_witness :
    (∃ c ∈ (api_state_room_id "MyRoom").data, c.isUpper = true)
    ∧ List.lookup (api_room_check_id "MyRoom") ([] : Store) = none
    ∧ (api_room_check_id "MyRoom" = pyLower (api_state_room_id "MyRoom")
      ∧ check_room_exists
          (update_room_state [] (api_state_room_id "MyRoom") (fun _ => none) 0)
          (api_state_room_id "MyRoom") = true
      ∧ api_room_check
          (update_room_state [] (api_state_room_id "MyRoom") (fun _ => none) 0)
          "MyRoom" = false) :=
  ⟨by decide, rfl,
    room_check_case_asymmetry [] "MyRoom" (fun _ => none) 0 (by decide) rfl⟩

/-- C6 (counterexample to the claim as stated): when another room already
    exists under the lower-cased id, the existence check on the upper-case
    id reports `exists = true`, so the claim's unconditional "reported as
    non-existent" fails. -/
theorem room_check_case_asymmetry_cex :
    (∃ c ∈ (api_state_room_id "AB").data, c.isUpper = true)
    ∧ api_room_check
        (update_room_state
          (update_room_state [] (api_state_room_id "ab") (fun _ => none) 0)
          (api_state_room_id "AB") (fun _ => none) 1)
        "AB" = true := by
  refine ⟨by decide, ?_⟩
  rfl

/-- Lookup is `none` exactly when the key is absent. -/
lemma lookup_none_iff {β : Type} (a : String) :
    ∀ l : List (String × β),
      List.lookup a l = none ↔ a ∉ l.map Prod.fst := by
  intro l
  induction l with
  | nil => simp [List.lookup]
  | cons e l ih =>
    by_cases he : a = e.1
    · simp [List.lookup, he]
    · simp [List.lookup, beq_false_of_ne he, ih, he]

/-- A surviving entry is still found after a filter pass. -/
lemma lookup_filter_some {β : Type} (a : String) (r : β)
    (p : String × β → Bool) :
    ∀ l : List (String × β), List.lookup a l = some r → p (a, r) = true →
      List.lookup a (l.filter p) = some r := by
  intro l
  induction l with
  | nil => simp [List.lookup]
  | cons e l ih =>
    intro hl hp
    obtain ⟨b, c⟩ := e
    by_cases he : a = b
    · subst he
      rw [List.lookup] at hl
      simp only [beq_self_eq_true] at hl
      obtain rfl : c = r := by simpa using hl
      rw [List.filter_cons, if_pos hp, List.lookup]
      simp
    · rw [List.lookup, beq_false_of_ne he] at hl
      rw [List.filter_cons]
      by_cases hpc : p (b, c) = true
      · rw [if_pos hpc, List.lookup, beq_false_of_ne he]
        exact ih hl hp
      · rw [if_neg hpc]
        exact ih hl hp

/-- With unique keys, an entry dropped by a filter pass is no longer found. -/
lemma lookup_filter_none {β : Type} (a : String) (r : β)
    (p : String × β → Bool) :
    ∀ l : List (String × β), (l.map Prod.fst).Nodup →
      List.lookup a l = some r → p (a, r) = false →
      List.lookup a (l.filter p) = none := by
  intro l
  induction l with
  | nil => simp [List.lookup]
  | cons e l ih =>
    intro hnd hl hp
    obtain ⟨b, c⟩ := e
    rw [List.map_cons, List.nodup_cons] at hnd
    by_cases he : a = b
    · subst he
      rw [List.lookup] at hl
      simp only [beq_self_eq_true] at hl
      obtain rfl : c = r := by simpa using hl
      rw [List.filter_cons, if_neg (by simp [hp])]
      rw [lookup_none_iff]
      intro hmem
      exact hnd.1 (by
        have : a ∈ (l.filter p).map Prod.fst := hmem
        have hsub : (l.filter p).Sublist l := List.filter_sublist l
        exact (hsub.map Prod.fst).mem this)
    · rw [List.lookup, beq_false_of_ne he] at hl
      rw [List.filter_cons]
      by_cases hpc : p (b, c) = true
      · rw [if_pos hpc, List.lookup, beq_false_of_ne he]
        exact ih hnd.2 hl hp
      · rw [if_neg hpc]
        exact ih hnd.2 hl hp

/-- The listing's room ids are exactly the store's keys. -/
lemma listing_ids (store : Store) (now : ℚ) :
    (list_active_rooms store now).map RoomListing.room_id
      = store.map Prod.fst := by
  rw [list_active_rooms, List.map_map]
  rfl

/-- Finding a room's listing row is looking the room up. -/
lemma find_listing (store : Store) (now : ℚ) (rid : String) :
    List.find? (fun e => e.room_id == rid) (list_active_rooms store now)
      = (List.lookup rid store).map (listingOf now rid) := by
  induction store with
  | nil => simp [list_active_rooms, List.lookup]
  | cons e l ih =>
    obtain ⟨a, r⟩ := e
    by_cases he : a = rid
    · subst he
      simp [list_active_rooms, List.find?, List.lookup, listingOf]
    · rw [list_active_rooms, List.map_cons, List.find?]
      have : ((listingOf now a r).room_id == rid) = false := by
        simp [listingOf, he]
      rw [this, List.lookup, beq_false_of_ne (fun h => he h.symm)]
      exact ih

/-- C8: after a reap pass at time `now`, a room idle longer than the 2-hour
    threshold is gone from the store and from subsequent listings, while a
    room within the threshold survives untouched; a room's listing row
    carries `active = true` exactly when its idle time is under 30
    seconds. -/
theorem room_reaping_and_active (store : Store) (now now2 : ℚ) (rid : String)
    (room : Room) (hnd : (store.map Prod.fst).Nodup)
    (hl : List.lookup rid store = some room) :
    ROOM_EXPIRY_SECONDS = 7200
    ∧ (now - room.last_activity > ROOM_EXPIRY_SECONDS →
        List.lookup rid (cleanup_expired_rooms store now) = none
        ∧ rid ∉ (list_active_rooms (cleanup_expired_rooms store now) now2).map
            RoomListing.room_id)
    ∧ (now - room.last_activity ≤ ROOM_EXPIRY_SECONDS →
        List.lookup rid (cleanup_expired_rooms store now) = some room)
    ∧ List.find? (fun e => e.room_id == rid) (list_active_rooms store now2)
        = some (listingOf now2 rid room)
    ∧ ((listingOf now2 rid room).active = true ↔
        now2 - room.last_activity < 30) := by
  refine ⟨by norm_num [ROOM_EXPIRY_SECONDS], ?_, ?_, ?_, ?_⟩
  · intro hexp
    have hnone : List.lookup rid (cleanup_expired_rooms store now) = none := by
      apply lookup_filter_none rid room _ store hnd hl
      simp [hexp]
    refine ⟨hnone, ?_⟩
    rw [listing_ids]
    have := (lookup_none_iff rid (cleanup_expired_rooms store now)).mp hnone
    intro hmem
    exact this (by
      have hsub : (cleanup_expired_rooms store now).Sublist store :=
        List.filter_sublist store
      rw [lookup_none_iff] at hnone
      exact absurd hmem hnone)
  · intro hok
    apply lookup_filter_some rid room _ store hl
    simp only [Bool.not_eq_true']
    simpa using not_lt_of_le hok
  · rw [find_listing, hl]
    rfl
  · simp [listingOf]

/-- C8 witness: with rooms `"a"` (idle 8000 s) and `"b"` (idle 2000 s) at
    reap time 8000, `"a"` is deleted and absent from the listing while `"b"`
    survives; `"b"`'s listing row at time 8010 is inactive. -/
theorem room_reaping_and_active_witness :
    (([("a", (⟨fun _ => none, 0⟩ : Room)),
       ("b", (⟨fun _ => none, 6000⟩ : Room))].map Prod.fst).Nodup)
    ∧ List.lookup "a" ([("a", (⟨fun _ => none, 0⟩ : Room)),
        ("b", (⟨fun _ => none, 6000⟩ : Room))] : Store)
        = some ⟨fun _ => none, 0⟩
    ∧ List.lookup "a"
        (cleanup_expired_rooms [("a", (⟨fun _ => none, 0⟩ : Room)),
          ("b", (⟨fun _ => none, 6000⟩ : Room))] 8000) = none
    ∧ "a" ∉ (list_active_rooms
        (cleanup_expired_rooms [("a", (⟨fun _ => none, 0⟩ : Room)),
          ("b", (⟨fun _ => none, 6000⟩ : Room))] 8000) 8010).map
        RoomListing.room_id
    ∧ List.lookup "b"
        (cleanup_expired_rooms [("a", (⟨fun _ => none, 0⟩ : Room)),
          ("b", (⟨fun _ => none, 6000⟩ : Room))] 8000)
        = some ⟨fun _ => none, 6000⟩
    ∧ ((listingOf 8010 "b" (⟨fun _ => none, 6000⟩ : Room)).active = true ↔
        (8010 : ℚ) - 6000 < 30) := by
  have h1 := room_reaping_and_active
    [("a", (⟨fun _ => none, 0⟩ : Room)), ("b", ⟨fun _ => none, 6000⟩)]
    8000 8010 "a" ⟨fun _ => none, 0⟩ (by decide) rfl
  have h2 := room_reaping_and_active
    [("a", (⟨fun _ => none, 0⟩ : Room)), ("b", ⟨fun _ => none, 6000⟩)]
    8000 8010 "b" ⟨fun _ => none, 6000⟩ (by decide) rfl
  have hexp : (8000 : ℚ) - 0 > ROOM_EXPIRY_SECONDS := by
    norm_num [ROOM_EXPIRY_SECONDS]
  have hok : (8000 : ℚ) - 6000 ≤ ROOM_EXPIRY_SECONDS := by
    norm_num [ROOM_EXPIRY_SECONDS]
  exact ⟨by decide, rfl, (h1.2.1 hexp).1, (h1.2.1 hexp).2,
    h2.2.2.1 hok, h2.2.2.2.2⟩

/-- C4: on a 1000-byte file, `Range: bytes=100-199` yields a 206 with
    exactly bytes 100-199 (100 bytes) and `Content-Range: bytes
    100-199/1000`, while no `Range` header yields a 200 with the whole
    file; in general a parseable range is served with the end clamped to
    `file_size - 1` and an open-ended range is served to end of file. -/
theorem serve_local_file_range_requests (content : List Nat) (h : List Char)
    (s : Nat) (eOpt : Option Nat) :
    (content.length = 1000 →
       (serve_local_file content (some "bytes=100-199".data)).status = 206
     ∧ (serve_local_file content (some "bytes=100-199".data)).body
         = (content.drop 100).take 100
     ∧ ((serve_local_file content (some "bytes=100-199".data)).body).length
         = 100
     ∧ (serve_local_file content (some "bytes=100-199".data)).contentRange
         = some (100, 199, 1000)
     ∧ (serve_local_file content none).status = 200
     ∧ (serve_local_file content none).body = content)
    ∧ (parseRangeHeader h = some (s, eOpt) →
        (serve_local_file content (some h)).status = 206
      ∧ (∀ e, eOpt = some e →
          (serve_local_file content (some h)).contentRange
            = some (s, min (e : ℤ) ((content.length : ℤ) - 1), content.length))
      ∧ (eOpt = none →
          (serve_local_file content (some h)).contentRange
            = some (s, (content.length : ℤ) - 1, content.length)
        ∧ (s < content.length →
            (serve_local_file content (some h)).body = content.drop s))) := by
  constructor
  · intro hlen
    have hp : parseRangeHeader ("bytes=100-199".data) = some (100, some 199) := by
      decide
    refine ⟨?_, ?_, ?_, ?_, rfl, rfl⟩
    · simp [serve_local_file, hp]
    · simp only [serve_local_file, hp, hlen]
      norm_num
      rfl
    · simp only [serve_local_file, hp, hlen]
      norm_num [List.length_take, List.length_drop]
      omega
    · simp only [serve_local_file, hp, hlen]
      norm_num
  · intro hp
    refine ⟨by simp [serve_local_file, hp], ?_, ?_⟩
    · intro e he
      subst he
      simp [serve_local_file, hp]
    · intro he
      subst he
      constructor
      · simp [serve_local_file, hp]
      · intro hs
        simp only [serve_local_file, hp]
        have hlen0 : ((content.length : ℤ) - 1 - (s : ℤ) + 1)
            = (content.length : ℤ) - s := by ring
        have hpos : ¬ ((content.length : ℤ) - 1 - (s : ℤ) + 1 ≤ 0) := by
          omega
        have htn : (((content.length : ℤ) - 1 - (s : ℤ) + 1)).toNat
            = content.length - s := by
          omega
        simp only [min_self, hpos, if_false, htn]
        apply List.take_of_length_le
        simp

/-- C10: for any parseable range on an existing file the responder answers
    206 with the end clamped to `file_size - 1` (there is no 416 path); when
    the requested start exceeds `file_size - 1` the declared `Content-Range`
    start exceeds its end, the declared `Content-Length` is non-positive,
    and no body bytes are written. -/
theorem serve_local_file_no_416 (content : List Nat) (h : List Char)
    (s : Nat) (eOpt : Option Nat)
    (hp : parseRangeHeader h = some (s, eOpt)) :
    (serve_local_file content (some h)).status = 206
    ∧ (∃ e2, (serve_local_file content (some h)).contentRange
          = some (s, e2, content.length) ∧ e2 ≤ (content.length : ℤ) - 1)
    ∧ ((s : ℤ) > (content.length : ℤ) - 1 →
        ∃ e2, (serve_local_file content (some h)).contentRange
            = some (s, e2, content.length)
          ∧ (s : ℤ) > e2
          ∧ (serve_local_file content (some h)).contentLength ≤ 0
          ∧ (serve_local_file content (some h)).body = []) := by
  cases eOpt with
  | none =>
    refine ⟨by simp [serve_local_file, hp], ⟨(content.length : ℤ) - 1, ?_, ?_⟩, ?_⟩
    · simp [serve_local_file, hp]
    · simp
    · intro hs
      refine ⟨(content.length : ℤ) - 1, ?_, by omega, ?_, ?_⟩
      · simp [serve_local_file, hp]
      · simp only [serve_local_file, hp]
        omega
      · simp only [serve_local_file, hp, min_self]
        rw [if_pos (by omega)]
  | some e =>
    refine ⟨by simp [serve_local_file, hp],
      ⟨min (e : ℤ) ((content.length : ℤ) - 1), ?_, min_le_right _ _⟩, ?_⟩
    · simp [serve_local_file, hp]
    · intro hs
      have hmin : min (e : ℤ) ((content.length : ℤ) - 1)
          ≤ (content.length : ℤ) - 1 := min_le_right _ _
      refine ⟨min (e : ℤ) ((content.length : ℤ) - 1), ?_, by omega, ?_, ?_⟩
      · simp [serve_local_file, hp]
      · simp only [serve_local_file, hp]
        omega
      · simp only [serve_local_file, hp]
        rw [if_pos (by omega)]

/-- C4 witness: concrete 1000-byte file and concrete parseable headers. -/
theorem serve_local_file_range_requests_witness :
    (List.replicate 1000 (0 : Nat)).length = 1000
    ∧ parseRangeHeader ("bytes=7-".data) = some (7, none)
    ∧ (serve_local_file (List.replicate 1000 0)
        (some "bytes=100-199".data)).status = 206
    ∧ ((serve_local_file (List.replicate 1000 0)
        (some "bytes=100-199".data)).body).length = 100
    ∧ (serve_local_file (List.replicate 1000 0)
        (some "bytes=100-199".data)).contentRange = some (100, 199, 1000)
    ∧ (serve_local_file (List.replicate 1000 0) none).status = 200
    ∧ (serve_local_file (List.replicate 1000 0)
        (some "bytes=7-".data)).contentRange
        = some (7, ((List.replicate 1000 (0 : Nat)).length : ℤ) - 1,
            (List.replicate 1000 (0 : Nat)).length) := by
  have hc := (serve_local_file_range_requests
    (List.replicate 1000 0) ("bytes=7-".data) 7 none).1
    (by rw [List.length_replicate])
  have hg := (serve_local_file_range_requests
    (List.replicate 1000 0) ("bytes=7-".data) 7 none).2 (by decide)
  exact ⟨by rw [List.length_replicate], by decide, hc.1, hc.2.2.1,
    hc.2.2.2.1, hc.2.2.2.2.1, (hg.2.2 rfl).1⟩

/-- C10 witness: `bytes=5-9` on a 3-byte file — status is still 206, the
    declared range start 5 exceeds its clamped end 2, the content length is
    non-positive and the body is empty. -/
theorem serve_local_file_no_416_witness :
    parseRangeHeader ("bytes=5-9".data) = some (5, some 9)
    ∧ ((5 : ℤ) > (([0, 1, 2] : List Nat).length : ℤ) - 1)
    ∧ (serve_local_file [0, 1, 2] (some "bytes=5-9".data)).status = 206
    ∧ (∃ e2, (serve_local_file [0, 1, 2] (some "bytes=5-9".data)).contentRange
          = some (5, e2, ([0, 1, 2] : List Nat).length)
        ∧ (5 : ℤ) > e2
        ∧ (serve_local_file [0, 1, 2] (some "bytes=5-9".data)).contentLength ≤ 0
        ∧ (serve_local_file [0, 1, 2] (some "bytes=5-9".data)).body = []) := by
  have h5 : ((5 : ℤ) > (([0, 1, 2] : List Nat).length : ℤ) - 1) := by
    norm_num
  have hthm := serve_local_file_no_416 [0, 1, 2] ("bytes=5-9".data) 5 (some 9)
    (by decide)
  exact ⟨by decide, h5, hthm.1, hthm.2.2 h5⟩
